import Mathlib

/-!
Shallow embedding of `burr/core/action.py` (the action contract layer of the
burr state-machine workflow library) and verification of the specification
claims about it.

The embedding models:
- Python runtime values restricted to the fragment the conditions need
  (`PyVal`: ints, strings, booleans, and the builtin `len` function object);
- the external immutable `State` type (`StateM`), modelled from the spec since
  `burr/core/state.py` is not part of the sources under review;
- `Condition` with its two constructors `Condition.when` and `Condition.expr`;
  the latter works at the level of the already-parsed expression tree
  (`PyExpr`), and its resolver is a model of CPython `eval` on that fragment:
  name lookup first in the locals mapping (the state snapshot), then in the
  builtins, short-circuiting boolean operators with truthiness, chained
  numeric/boolean coercion in comparisons, and crucially NO restriction on
  node kinds: call nodes are evaluated, exactly as `eval(compile(tree, ...))`
  does in the source. Division is left out of the fragment because it
  produces floats, which none of the claims need.
- `FunctionBasedAction` with its construction, `run`/`update` protocol and
  `with_params` currying. Python methods that mutate `self` are modelled by
  also returning the updated instance; methods that do not assign to `self`
  return the instance unchanged.
- the dead validator `_validate_action_function` (it has no call site in the
  source), over a model of `inspect.signature`;
- the `create_action` factory over a sum of the possible inputs.

All Python-level errors in the file are `ValueError`s; the spec names them by
raise site (NameConflictError, ProtocolOrderError, RegistrationError,
ConstructionError), and `BurrError` records those sites as tags.
-/

namespace Burr

/-- Python runtime values, restricted to the fragment used by conditions:
integers, strings, booleans, and the builtin function `len` (reachable from
`eval` because the source passes an empty globals dict, into which CPython
injects the builtins). -/
inductive PyVal where
  | int (n : Int)
  | str (s : String)
  | bool (b : Bool)
  | builtinLen
deriving DecidableEq

/-- A Python dict with string keys, as an insertion-ordered association list. -/
abbrev Dict := List (String × PyVal)

/-- Modelled from the spec: the external immutable State type
(`burr/core/state.py` is not among the sources under review). Spec section 3:
an ordered-insertion mapping from string keys to values with `get`,
`get_all`, and `subset`; spec section 9 records that `subset` silently drops
requested keys that are absent rather than failing. -/
structure StateM where
  entries : Dict
deriving DecidableEq

/-- Modelled from the spec: `State.get(key)` returns the value at the key, or
`None` (here `none`) when absent. -/
def StateM.get (s : StateM) (k : String) : Option PyVal :=
  s.entries.lookup k

/-- Modelled from the spec: `State.get_all()` returns the full snapshot. -/
def StateM.get_all (s : StateM) : Dict :=
  s.entries

/-- Modelled from the spec: `State.subset(*keys)` returns a new State limited
to the requested keys, keeping only those that are present (missing keys are
silently dropped, spec section 9). -/
def StateM.subset (s : StateM) (keys : List String) : StateM :=
  ⟨keys.filterMap fun k => (s.get k).map fun v => (k, v)⟩

/-- The raise sites of the `ValueError`s in `burr/core/action.py`, tagged by
the names the spec taxonomy gives them (section 7). `indexError` models the
`IndexError` that `_validate_action_function` raises on a parameterless
function via `list(params.keys())[0]`. -/
inductive BurrError where
  | nameConflict
  | protocolOrder
  | registration
  | construction
  | indexError
deriving DecidableEq

/-- The base `Action` object state: an optional write-once `_name` plus the
subclass payload. `Action.__init__` sets `self._name = None`. -/
structure ActionObj (π : Type) where
  _name : Option String
  payload : π

/-- `Action.with_name`: raises (`NameConflictError` site) when `_name` is
already set; otherwise `copy.copy(self)` with `_name` replaced — all other
attributes (the payload) are carried over unchanged. -/
def ActionObj.with_name {π : Type} (a : ActionObj π) (n : String) :
    Except BurrError (ActionObj π) :=
  match a._name with
  | some _ => .error .nameConflict
  | none => .ok ⟨some n, a.payload⟩

/-- The `Action.name` property. -/
def ActionObj.name {π : Type} (a : ActionObj π) : Option String :=
  a._name

/-- Errors a Python `eval` of a condition expression can raise in the
modelled fragment. -/
inductive EvalErr where
  | nameError (id : String)
  | typeError
deriving DecidableEq

/-- `Condition`: keys read, a resolver over the state, and an optional name.
The resolver returns whatever the underlying Python callable returns (for
`expr` conditions that is the raw `eval` result, which need not be a bool and
may raise). -/
structure Condition where
  keys : List String
  resolver : StateM → Except EvalErr PyVal
  name : Option String

/-- `Condition.KEY = "PROCEED"`. -/
def Condition.KEY : String := "PROCEED"

/-- `Condition.run`: returns the dict `{Condition.KEY: self._resolver(state)}`;
an exception in the resolver propagates. -/
def Condition.run (c : Condition) (state : StateM) : Except EvalErr Dict :=
  (c.resolver state).map fun v => [(Condition.KEY, v)]

/-- The `Condition.reads` property: returns `self._keys`. -/
def Condition.reads (c : Condition) : List String :=
  c.keys

/-- The boolean operator kinds `ast.And` and `ast.Or`. -/
inductive BoolOpKind where
  | boolAnd
  | boolOr
deriving DecidableEq

/-- The comparison operator kinds `ast.Eq`, `ast.NotEq`, `ast.Lt`, `ast.Gt`,
`ast.LtE`, `ast.GtE`. -/
inductive CmpOpKind where
  | eq
  | notEq
  | lt
  | gt
  | ltE
  | gtE
deriving DecidableEq

/-- The binary arithmetic operator kinds `ast.Add`, `ast.Sub`, `ast.Mult`
(division is outside the fragment: it produces floats, which no claim
needs). -/
inductive BinOpKind where
  | add
  | sub
  | mult
deriving DecidableEq

/-- Python expression trees for the fragment relevant to conditions:
identifiers, literals, boolean operators, `not`, comparisons, arithmetic, and
function calls. `ast.parse(expr, mode="eval")` in the source accepts the full
Python expression grammar; this fragment is large enough to exhibit the
behavior the claims are about (in particular it contains call nodes). n-ary
`BoolOp`/`Compare` nodes are modelled by their binary nestings. -/
inductive PyExpr where
  | name (id : String)
  | const (v : PyVal)
  | boolop (op : BoolOpKind) (l r : PyExpr)
  | unaryNot (e : PyExpr)
  | compare (op : CmpOpKind) (l r : PyExpr)
  | binop (op : BinOpKind) (l r : PyExpr)
  | call (func : PyExpr) (arg : PyExpr)
deriving DecidableEq

/-- Python truthiness for the modelled values. -/
def PyVal.truthy : PyVal → Bool
  | .int n => n != 0
  | .str s => s != ""
  | .bool b => b
  | .builtinLen => true

/-- Numeric view of a value: Python treats `bool` as an int subtype, so
`True == 1`, `True + True == 2`, and so on. -/
def PyVal.toNum : PyVal → Option Int
  | .int n => some n
  | .bool b => some (if b then 1 else 0)
  | _ => none

/-- Python `==` on the modelled values (numeric cross-type equality between
ints and bools; distinct non-numeric types are unequal, never an error). -/
def pyEq (a b : PyVal) : Bool :=
  match a.toNum, b.toNum with
  | some m, some n => m == n
  | _, _ =>
    match a, b with
    | .str s, .str t => s == t
    | .builtinLen, .builtinLen => true
    | _, _ => false

/-- Python `state.get(key) == value` where a missing key yields `None`, and
`None` is equal to none of the modelled values. -/
def pyEqOpt (o : Option PyVal) (v : PyVal) : Bool :=
  match o with
  | some w => pyEq w v
  | none => false

/-- Python ordering comparison; mixing non-numeric types raises `TypeError`. -/
def pyOrd (a b : PyVal) : Except EvalErr Ordering :=
  match a.toNum, b.toNum with
  | some m, some n => .ok (compare m n)
  | _, _ =>
    match a, b with
    | .str s, .str t => .ok (compare s t)
    | _, _ => .error .typeError

/-- Evaluation of one comparison operator on two values. -/
def pyCompare (op : CmpOpKind) (a b : PyVal) : Except EvalErr Bool :=
  match op with
  | .eq => .ok (pyEq a b)
  | .notEq => .ok (!pyEq a b)
  | .lt => do let o ← pyOrd a b; pure (o == Ordering.lt)
  | .gt => do let o ← pyOrd a b; pure (o == Ordering.gt)
  | .ltE => do let o ← pyOrd a b; pure (o != Ordering.gt)
  | .gtE => do let o ← pyOrd a b; pure (o != Ordering.lt)

/-- Binary arithmetic. Numeric operands (ints and bools) use integer
arithmetic; `+` also concatenates strings; anything else raises
`TypeError`. -/
def pyBin (op : BinOpKind) (a b : PyVal) : Except EvalErr PyVal :=
  match a.toNum, b.toNum with
  | some m, some n =>
    match op with
    | .add => .ok (.int (m + n))
    | .sub => .ok (.int (m - n))
    | .mult => .ok (.int (m * n))
  | _, _ =>
    match op, a, b with
    | .add, .str s, .str t => .ok (.str (s ++ t))
    | _, _, _ => .error .typeError

/-- A model of CPython `eval(compile(tree, "<string>", "eval"), \x7b\x7d, locals)`
on the fragment: names resolve first in the locals mapping (the state
snapshot) and then in the builtins (`len` — CPython injects `__builtins__`
into the empty globals dict); `and`/`or` short-circuit on truthiness and
return the deciding operand; `not` returns a bool; calls are evaluated (the
only modelled callable is `len`, on strings). There is no node-kind check of
any sort: this is a general-purpose evaluator, as in the source. -/
def pyEval (env : Dict) : PyExpr → Except EvalErr PyVal
  | .name id =>
    match env.lookup id with
    | some v => .ok v
    | none => if id = "len" then .ok .builtinLen else .error (.nameError id)
  | .const v => .ok v
  | .boolop .boolAnd l r => do
    let lv ← pyEval env l
    if lv.truthy then pyEval env r else pure lv
  | .boolop .boolOr l r => do
    let lv ← pyEval env l
    if lv.truthy then pure lv else pyEval env r
  | .unaryNot e => do
    let v ← pyEval env e
    pure (.bool (!v.truthy))
  | .compare op l r => do
    let a ← pyEval env l
    let b ← pyEval env r
    let c ← pyCompare op a b
    pure (.bool c)
  | .binop op l r => do
    let a ← pyEval env l
    let b ← pyEval env r
    pyBin op a b
  | .call f arg => do
    let fv ← pyEval env f
    let av ← pyEval env arg
    match fv, av with
    | .builtinLen, .str s => .ok (.int (s.length : Int))
    | .builtinLen, _ => .error .typeError
    | _, _ => .error .typeError

/-- The `NameVisitor` of `Condition.expr`: collect the id of every `Name`
node anywhere in the tree (Python accumulates them into a set; the traversal
order below is one linearization of that collection). -/
def collect_names : PyExpr → List String
  | .name id => [id]
  | .const _ => []
  | .boolop _ l r => collect_names l ++ collect_names r
  | .unaryNot e => collect_names e
  | .compare _ l r => collect_names l ++ collect_names r
  | .binop _ l r => collect_names l ++ collect_names r
  | .call f arg => collect_names f ++ collect_names arg

/-- Python `str()` of the modelled values, used by the f-string that builds
the name of a `when` condition. -/
def PyVal.pyStr : PyVal → String
  | .int n => toString n
  | .str s => s
  | .bool true => "True"
  | .bool false => "False"
  | .builtinLen => "<built-in function len>"

/-- Rendering of an expression tree back to a source text, standing in for
the raw input string that `Condition.expr` stores as the condition name (the
embedding works at tree level, so the text is recovered from the tree). -/
def PyExpr.render : PyExpr → String
  | .name id => id
  | .const v => v.pyStr
  | .boolop .boolAnd l r => "(" ++ l.render ++ " and " ++ r.render ++ ")"
  | .boolop .boolOr l r => "(" ++ l.render ++ " or " ++ r.render ++ ")"
  | .unaryNot e => "(not " ++ e.render ++ ")"
  | .compare op l r =>
    let sym :=
      match op with
      | .eq => "=="
      | .notEq => "!="
      | .lt => "<"
      | .gt => ">"
      | .ltE => "<="
      | .gtE => ">="
    "(" ++ l.render ++ " " ++ sym ++ " " ++ r.render ++ ")"
  | .binop op l r =>
    let sym :=
      match op with
      | .add => "+"
      | .sub => "-"
      | .mult => "*"
    "(" ++ l.render ++ " " ++ sym ++ " " ++ r.render ++ ")"
  | .call f arg => f.render ++ "(" ++ arg.render ++ ")"

/-- `Condition.expr`: the source parses the text with `ast.parse(expr,
mode="eval")` (accepting any Python expression, with no restriction on node
kinds), collects every `Name` id into a set for the keys, and builds a
resolver that runs `eval(compile(tree, "<string>", "eval"), \x7b\x7d,
state.get_all())` — a general-purpose evaluation of the tree with the state
snapshot as locals. The condition name is the input text. -/
def Condition.expr (t : PyExpr) : Condition :=
  ⟨(collect_names t).dedup, fun state => pyEval state.get_all t, some t.render⟩

/-- Python string comparison: lexicographic by code point. -/
def strLt (s t : String) : Bool :=
  decide (s.data < t.data)

/-- Insertion of a key-value pair into a key-sorted list, keeping equal keys
in encounter order (Python `sorted` is stable; kwargs keys are unique). -/
def insertByKey (p : String × PyVal) : List (String × PyVal) → List (String × PyVal)
  | [] => [p]
  | q :: rest => if strLt p.1 q.1 then p :: q :: rest else q :: insertByKey p rest

/-- `sorted(kwargs.items())` for unique keys: sort the pairs by key. -/
def sortByKey : List (String × PyVal) → List (String × PyVal)
  | [] => []
  | p :: rest => insertByKey p (sortByKey rest)

/-- `Condition.when(**kwargs)`: keys are the kwargs keys; the resolver
returns `False` on the first pair whose `state.get(key)` differs from the
given value and `True` otherwise; the name joins the `"key=value"` pairs of
`sorted(kwargs.items())` with `", "`. -/
def Condition.when (kwargs : List (String × PyVal)) : Condition :=
  ⟨kwargs.map Prod.fst,
    fun state => .ok (.bool (kwargs.all fun kv => pyEqOpt (state.get kv.1) kv.2)),
    some (String.intercalate ", " ((sortByKey kwargs).map fun kv => kv.1 ++ "=" ++ kv.2.pyStr))⟩

/-- The module-level `default` condition: no keys, always true. -/
def default : Condition :=
  ⟨[], fun _ => .ok (.bool true), some "default"⟩

/-- The kinds of `inspect.Parameter`. -/
inductive ParamKind where
  | positionalOnly
  | positionalOrKeyword
  | varPositional
  | keywordOnly
  | varKeyword
deriving DecidableEq

/-- One parameter of `inspect.signature(fn)`: its name, kind, and annotation
(annotations are modelled as their source text; the `State` annotation is
the text `"State"`). -/
structure Param where
  name : String
  kind : ParamKind
  annotation : String
deriving DecidableEq

/-- `inspect.signature(fn)`: the ordered parameters and the return
annotation, again as text; `Tuple[dict, State]` is `"Tuple[dict, State]"`. -/
structure Signature where
  params : List Param
  return_annotation : String
deriving DecidableEq

/-- `_validate_action_function(fn)`: raises unless the first parameter is
named `state` and annotated `State`, every later parameter is
positional-or-keyword or keyword-only, and the return annotation is
`Tuple[dict, State]`. On a parameterless function, Python raises `IndexError`
at `list(params.keys())[0]`. NOTE: this function has no call site anywhere in
the source file — nothing invokes it. -/
def _validate_action_function (sig : Signature) : Except BurrError Unit :=
  match sig.params with
  | [] => .error .indexError
  | p0 :: rest =>
    if p0.name ≠ "state" ∨ p0.annotation ≠ "State" then .error .construction
    else if rest.all fun p =>
        decide (p.kind = ParamKind.positionalOrKeyword) ||
        decide (p.kind = ParamKind.keywordOnly) then
      if sig.return_annotation ≠ "Tuple[dict, State]" then .error .construction
      else .ok ()
    else .error .construction

/-- A Python function object as a `FunctionBasedAction` sees it: its
introspectable signature together with its behavior, a map from the state and
the keyword arguments it is called with to the returned
`(result, new_state)` pair. -/
structure PyFunction where
  sig : Signature
  impl : StateM → Dict → Dict × StateM

/-- The subclass attributes of `FunctionBasedAction`: the wrapped function
`_fn`, the `_reads`/`_writes` declarations, the run cache `_state_created`,
and the bound parameters `_bound_params`. -/
structure FBAData where
  fn : PyFunction
  reads : List String
  writes : List String
  state_created : Option StateM
  bound_params : Dict

/-- A `FunctionBasedAction` is an `Action` (so an optional `_name`) with the
`FBAData` payload. -/
abbrev FunctionBasedAction := ActionObj FBAData

/-- `FunctionBasedAction.__init__(fn, reads, writes, bound_params=None)`:
stores the function and the declarations, sets `_state_created = None` and
`_bound_params` to the given dict or `\x7b\x7d`, and performs no other work —
in particular, it never inspects or validates the function's signature. -/
def FunctionBasedAction.construct (fn : PyFunction) (reads writes : List String)
    (bound_params : Option Dict) : FunctionBasedAction :=
  ⟨none, ⟨fn, reads, writes, none, bound_params.getD []⟩⟩

/-- `FunctionBasedAction.run(state)`: calls
`self._fn(state, **self._bound_params)`, caches the returned new state in
`self._state_created`, and returns the result dict. The mutation of `self`
is modelled by also returning the updated instance. -/
def FunctionBasedAction.run (a : FunctionBasedAction) (state : StateM) :
    Dict × FunctionBasedAction :=
  let out := a.payload.fn.impl state a.payload.bound_params
  (out.1,
    ⟨a._name,
      ⟨a.payload.fn, a.payload.reads, a.payload.writes, some out.2,
        a.payload.bound_params⟩⟩)

/-- `FunctionBasedAction.update(result, state)`: raises (`ProtocolOrderError`
site) when `_state_created` is `None`, and otherwise returns
`self._state_created.subset(*self._writes)`. The method reads neither
`result` nor `state`, and it assigns nothing to `self`; the unchanged
instance is returned alongside the new state. -/
def FunctionBasedAction.update (a : FunctionBasedAction) (result : Dict)
    (state : StateM) : Except BurrError (StateM × FunctionBasedAction) :=
  match a.payload.state_created with
  | none => .error .protocolOrder
  | some created => .ok (created.subset a.payload.writes, a)

/-- Python `dict` single-key write: an existing key keeps its position and
gets the new value; a new key is appended. -/
def Dict.set : Dict → String → PyVal → Dict
  | [], k, v => [(k, v)]
  | p :: rest, k, v => if p.1 = k then (p.1, v) :: rest else p :: Dict.set rest k v

/-- Python `\x7b**d, **kwargs\x7d`: the entries of `kwargs` written over `d`
in order, later values overriding on key collision. -/
def Dict.merge (d kwargs : Dict) : Dict :=
  kwargs.foldl (fun acc p => Dict.set acc p.1 p.2) d

/-- `FunctionBasedAction.with_params(**kwargs)`: `copy.copy(self)` with
`_bound_params` replaced by `\x7b**self._bound_params, **kwargs\x7d`; every
other attribute — including the run cache — is carried over, and the
receiver is untouched. -/
def FunctionBasedAction.with_params (a : FunctionBasedAction) (kwargs : Dict) :
    FunctionBasedAction :=
  ⟨a._name,
    ⟨a.payload.fn, a.payload.reads, a.payload.writes, a.payload.state_created,
      Dict.merge a.payload.bound_params kwargs⟩⟩

/-- The subclass attribute of `Result`: the field list. -/
structure ResultData where
  fields : List String
deriving DecidableEq

/-- A `Result` is an `Action` with the field list as payload. -/
abbrev ResultAction := ActionObj ResultData

/-- `Result.__init__(fields)`. -/
def ResultAction.construct (fields : List String) : ResultAction :=
  ⟨none, ⟨fields⟩⟩

/-- `Result.run(state)`: the sub-dict of `state.get_all()` restricted to the
declared fields. -/
def ResultAction.run (a : ResultAction) (state : StateM) : Dict :=
  state.get_all.filter fun kv => a.payload.fields.contains kv.1

/-- `Result.update(result, state)`: returns `state` unchanged. -/
def ResultAction.update (a : ResultAction) (result : Dict) (state : StateM) :
    StateM :=
  state

/-- The concrete `Action` instances of the source file, for the factory. -/
inductive AnyAction where
  | fba (a : FunctionBasedAction)
  | res (r : ResultAction)

/-- `name` of either kind of action. -/
def AnyAction.name : AnyAction → Option String
  | .fba a => a._name
  | .res r => r._name

/-- `with_name` dispatched over either kind of action. -/
def AnyAction.with_name : AnyAction → String → Except BurrError AnyAction
  | .fba a, n => (ActionObj.with_name a n).map AnyAction.fba
  | .res r, n => (ActionObj.with_name r n).map AnyAction.res

/-- The possible arguments of `create_action`: an `Action` instance, or a
function object that either does or does not carry the
`action_function` attribute that the `@action` decorator attaches (the
attached value is a `FunctionBasedAction`). -/
inductive CreateInput where
  | actionInst (a : AnyAction)
  | functionObj (marker : Option FunctionBasedAction)

/-- `create_action(action_, name)`: when the argument carries the
`action_function` attribute, the attached `FunctionBasedAction` replaces it;
otherwise a non-`Action` argument raises (`RegistrationError` site). The
surviving action is then given the name via `with_name` — which itself
raises when that action already has a name. -/
def create_action : CreateInput → String → Except BurrError AnyAction
  | .functionObj (some f), name => (ActionObj.with_name f name).map AnyAction.fba
  | .functionObj none, _ => .error .registration
  | .actionInst a, name => a.with_name name

/-- The action that `create_action` goes on to name: the attached
`FunctionBasedAction` of a marked function, the argument itself when it is an
`Action` instance, and nothing for an unmarked function. -/
def CreateInput.resolved : CreateInput → Option AnyAction
  | .actionInst a => some a
  | .functionObj (some f) => some (.fba f)
  | .functionObj none => none

/-- A well-formed function fixture with signature
`(state: State) -> Tuple[dict, State]`, returning an empty result and an
empty state. -/
def emptyFn : PyFunction :=
  ⟨⟨[⟨"state", ParamKind.positionalOrKeyword, "State"⟩], "Tuple[dict, State]"⟩,
    fun _ _ => ([], ⟨[]⟩)⟩

/-- A fresh, unnamed function-based action with no bound parameters. -/
def freshAction : FunctionBasedAction :=
  FunctionBasedAction.construct emptyFn ["r"] ["w"] none

/-- The parse tree of the text `len("ab") == 2`: an expression containing a
call node, which a sandboxed interpreter limited to
identifier/literal/comparison/boolean/arithmetic node kinds would reject. -/
def c1_tree : PyExpr :=
  .compare .eq (.call (.name "len") (.const (.str "ab"))) (.const (.int 2))

/-- A signature the validator rejects: first parameter named `foo` and
annotated `int`, return annotation `int`. -/
def badSignature : Signature :=
  ⟨[⟨"foo", ParamKind.positionalOrKeyword, "int"⟩], "int"⟩

/-- A function whose signature violates every clause of the declared
contract. -/
def badPyFunction : PyFunction :=
  ⟨badSignature, fun _ _ => ([], ⟨[]⟩)⟩

/-- A function-based action that declares the write key `x` but whose
function produces an empty new state, omitting `x`. -/
def c3_action : FunctionBasedAction :=
  FunctionBasedAction.construct emptyFn [] ["x"] none

/-- The parse tree of `a == b and c > 3`. -/
def c7_tree_abc : PyExpr :=
  .boolop .boolAnd (.compare .eq (.name "a") (.name "b"))
    (.compare .gt (.name "c") (.const (.int 3)))

/-- The parse tree of `c > 3 and b == a`: the same identifiers in the
opposite textual order. -/
def c7_tree_cba : PyExpr :=
  .boolop .boolAnd (.compare .gt (.name "c") (.const (.int 3)))
    (.compare .eq (.name "b") (.name "a"))

/-- A `Result` action that already carries a name. -/
def namedResult : ResultAction :=
  ⟨some "already", ⟨["x"]⟩⟩

/-- Keyed lookup into the list that `subset` builds: the result holds a key
exactly when it is requested and present, with the value from the original
entries. -/
theorem lookup_filterMap_get (entries : Dict) (keys : List String) (k : String) :
    (keys.filterMap fun k0 => (entries.lookup k0).map fun v => (k0, v)).lookup k
      = if k ∈ keys then entries.lookup k else none := by
  induction keys with
  | nil => simp
  | cons k0 rest ih =>
    rw [List.filterMap_cons]
    cases hv : entries.lookup k0 with
    | none =>
      by_cases hk : k = k0
      · subst hk
        simp [ih, hv]
      · simp [hk, ih]
    | some v =>
      by_cases hk : k = k0
      · subst hk
        simp [List.lookup, hv]
      · have hbeq : (k == k0) = false := by simp [hk]
        simp [List.lookup, hbeq, ih, hk]

/-- `State.subset` pointwise: a key survives exactly when it is requested and
present. -/
theorem StateM.get_subset (s : StateM) (keys : List String) (k : String) :
    StateM.get (StateM.subset s keys) k = if k ∈ keys then StateM.get s k else none :=
  lookup_filterMap_get s.entries keys k

/-- C1: the claim says a condition built by `Condition.expr` evaluates with a
sandboxed interpreter that rejects any expression containing a call. The code
instead runs `eval(compile(tree, "<string>", "eval"), \x7b\x7d,
state.get_all())` — a general-purpose evaluation with no node-kind check —
so the expression `len("ab") == 2`, which contains a call node, is evaluated
(resolving the builtin `len` through the empty globals dict) and yields
`\x7bPROCEED: True\x7d` against the empty state instead of being rejected. -/
theorem c1_expr_evaluates_call_nodes :
    (Condition.expr c1_tree).run ⟨[]⟩ = .ok [(Condition.KEY, PyVal.bool true)] := by
  rfl

/-- C2: the claim says an invalid function signature makes
`FunctionBasedAction` construction itself fail with a `ConstructionError`.
The validator `_validate_action_function` does reject `badSignature` (first
parameter is not the `State` argument, return annotation mismatched), but
`FunctionBasedAction.__init__` never calls it — it has no call site in the
source — so construction with the invalid function succeeds unconditionally
and returns a fully formed action. -/
theorem c2_construction_performs_no_validation :
    _validate_action_function badPyFunction.sig = .error .construction
    ∧ FunctionBasedAction.construct badPyFunction ["r"] ["w"] none
        = ⟨none, ⟨badPyFunction, ["r"], ["w"], none, []⟩⟩ :=
  ⟨rfl, rfl⟩

/-- C3 counterexample: `c3_action` declares the write key `x`, its function
returns the empty new state, and after `run` the state returned by `update`
maps `x` to nothing — its `get_all()` is empty. So `update(result,
state).get_all()` does NOT contain every declared write key: `subset`
silently drops declared write keys that the produced state omits, refuting
the claim as stated. -/
theorem c3_update_drops_missing_write_key :
    c3_action.payload.writes = ["x"]
    ∧ (FunctionBasedAction.update (FunctionBasedAction.run c3_action ⟨[]⟩).2 [] ⟨[]⟩).map
        (fun p => StateM.get_all p.1) = .ok [] :=
  ⟨rfl, rfl⟩

/-- C3 (amended): after a `run` whose function produced `new_state`, the
state returned by `update` holds exactly the declared write keys that are
present in `new_state`, each with its value from `new_state`, and nothing
else — extra keys of `new_state` are dropped, and so is any declared write
key that `new_state` omits. -/
theorem c3_update_restricts_to_written_subset (f : PyFunction)
    (reads writes : List String) (bp : Option Dict) (s s2 : StateM)
    (result : Dict) (k : String) :
    (FunctionBasedAction.update
        (FunctionBasedAction.run (FunctionBasedAction.construct f reads writes bp) s).2
        result s2).map (fun p => StateM.get p.1 k)
      = .ok (if k ∈ writes then StateM.get (f.impl s (bp.getD [])).2 k else none) := by
  have h := StateM.get_subset (f.impl s (bp.getD [])).2 writes k
  simp [FunctionBasedAction.construct, FunctionBasedAction.run,
    FunctionBasedAction.update, Except.map, h]

/-- C4: `with_name` fails with the name-conflict error exactly when the
action already has a name bound; on an unnamed action it always succeeds,
returning a new action with the name bound and every other attribute (the
payload) unchanged — the original value is untouched. Stated for the generic
`Action` base object, so it covers every action class. -/
theorem c4_with_name_write_once (π : Type) (a : ActionObj π) (n : String) :
    (ActionObj.with_name a n = .error .nameConflict ↔ a._name ≠ none)
    ∧ ((∃ b, ActionObj.with_name a n = .ok b) ↔ a._name = none)
    ∧ (a._name = none → ActionObj.with_name a n = .ok ⟨some n, a.payload⟩) := by
  cases h : a._name with
  | none => simp [ActionObj.with_name, h]
  | some m => simp [ActionObj.with_name, h]

/-- C4 witness: naming an unnamed action succeeds and binds the name; naming
a named action fails with the name-conflict error. -/
theorem c4_with_name_write_once_witness :
    ActionObj.with_name (⟨none, 0⟩ : ActionObj Nat) "a" = .ok ⟨some "a", 0⟩
    ∧ ActionObj.with_name (⟨some "a", 0⟩ : ActionObj Nat) "b"
        = .error .nameConflict := by
  refine ⟨(c4_with_name_write_once Nat ⟨none, 0⟩ "a").2.2 rfl, ?_⟩
  exact (c4_with_name_write_once Nat ⟨some "a", 0⟩ "b").1.mpr (by simp)

/-- C5: on a freshly constructed `FunctionBasedAction` (whose
`_state_created` cache is `None`), `update` fails with the
protocol-order error; `update` succeeds exactly when the cache holds a
produced state, and `run` is what fills the cache. -/
theorem c5_update_requires_preceding_run :
    (∀ (f : PyFunction) (reads writes : List String) (bp : Option Dict)
        (result : Dict) (state : StateM),
      FunctionBasedAction.update (FunctionBasedAction.construct f reads writes bp)
          result state = .error .protocolOrder)
    ∧ (∀ (a : FunctionBasedAction) (result : Dict) (state : StateM),
        (∃ out, FunctionBasedAction.update a result state = .ok out)
          ↔ a.payload.state_created.isSome = true)
    ∧ (∀ (a : FunctionBasedAction) (state : StateM),
        ((FunctionBasedAction.run a state).2).payload.state_created.isSome = true) := by
  refine ⟨fun f reads writes bp result state => rfl,
    fun a result state => ?_, fun a state => rfl⟩
  cases h : a.payload.state_created with
  | none => simp [FunctionBasedAction.update, h]
  | some created => simp [FunctionBasedAction.update, h]

/-- C6: the condition built by `when(**kwargs)` reads exactly the given keys;
its `run` yields `\x7bPROCEED: True\x7d` exactly when every `state.get(k)`
equals the given value under Python equality (a missing key, i.e. `None`,
never matches) and `\x7bPROCEED: False\x7d` otherwise; and its name is the
`"k=v"` rendering of the pairs sorted by key, joined with `", "`. -/
theorem c6_when_equality_condition (kwargs : List (String × PyVal)) (s : StateM)
    (hkeys : (kwargs.map Prod.fst).Nodup) :
    (Condition.when kwargs).keys = kwargs.map Prod.fst
    ∧ ((Condition.when kwargs).run s = .ok [(Condition.KEY, PyVal.bool true)]
        ↔ ∀ kv ∈ kwargs, pyEqOpt (StateM.get s kv.1) kv.2 = true)
    ∧ ((Condition.when kwargs).run s = .ok [(Condition.KEY, PyVal.bool false)]
        ↔ ¬ ∀ kv ∈ kwargs, pyEqOpt (StateM.get s kv.1) kv.2 = true)
    ∧ (Condition.when kwargs).name
        = some (String.intercalate ", "
            ((sortByKey kwargs).map fun kv => kv.1 ++ "=" ++ kv.2.pyStr)) := by
  have hrun : (Condition.when kwargs).run s
      = .ok [(Condition.KEY,
          PyVal.bool (kwargs.all fun kv => pyEqOpt (StateM.get s kv.1) kv.2))] := rfl
  refine ⟨rfl, ?_, ?_, rfl⟩
  · rw [hrun]
    simp [List.all_eq_true]
  · rw [hrun]
    simp only [Except.ok.injEq, List.cons.injEq, Prod.mk.injEq, PyVal.bool.injEq,
      and_true, true_and, eq_self_iff_true]
    rw [← List.all_eq_true]
    exact Bool.eq_false_iff

/-- C6 witness: `when(a=1, b=2)` run against `\x7ba:1, b:2, c:9\x7d` yields
`\x7bPROCEED: True\x7d`, against `\x7ba:1, b:3\x7d` yields
`\x7bPROCEED: False\x7d`; its reads are `a, b` and its name is `"a=1, b=2"`. -/
theorem c6_when_equality_condition_witness :
    (Condition.when [("a", PyVal.int 1), ("b", PyVal.int 2)]).keys = ["a", "b"]
    ∧ (Condition.when [("a", PyVal.int 1), ("b", PyVal.int 2)]).run
        ⟨[("a", PyVal.int 1), ("b", PyVal.int 2), ("c", PyVal.int 9)]⟩
        = .ok [(Condition.KEY, PyVal.bool true)]
    ∧ (Condition.when [("a", PyVal.int 1), ("b", PyVal.int 2)]).run
        ⟨[("a", PyVal.int 1), ("b", PyVal.int 3)]⟩
        = .ok [(Condition.KEY, PyVal.bool false)]
    ∧ (Condition.when [("a", PyVal.int 1), ("b", PyVal.int 2)]).name
        = some "a=1, b=2" := by
  have h1 := c6_when_equality_condition [("a", PyVal.int 1), ("b", PyVal.int 2)]
    ⟨[("a", PyVal.int 1), ("b", PyVal.int 2), ("c", PyVal.int 9)]⟩ (by decide)
  have h2 := c6_when_equality_condition [("a", PyVal.int 1), ("b", PyVal.int 2)]
    ⟨[("a", PyVal.int 1), ("b", PyVal.int 3)]⟩ (by decide)
  exact ⟨h1.1, h1.2.1.mpr (by decide), h2.2.2.1.mpr (by decide),
    h1.2.2.2.trans (by rfl)⟩

/-- C7: the reads of a condition built by `Condition.expr` are, as a set, the
identifiers appearing anywhere in the parse tree (every identifier in the
modelled fragment is free), with duplicates removed; for the tree of
`a == b and c > 3` the read set is `\x7ba, b, c\x7d`, and the tree with the
identifiers in the opposite textual order has the same read set. -/
theorem c7_expr_reads_identifier_set (t : PyExpr) :
    ((Condition.expr t).reads).toFinset = (collect_names t).toFinset
    ∧ ((Condition.expr t).reads).Nodup
    ∧ ((Condition.expr c7_tree_abc).reads).toFinset = {"a", "b", "c"}
    ∧ ((Condition.expr c7_tree_cba).reads).toFinset
        = ((Condition.expr c7_tree_abc).reads).toFinset := by
  refine ⟨?_, ?_, by decide, by decide⟩
  · ext x
    simp [Condition.reads, Condition.expr, List.mem_dedup]
  · simp [Condition.reads, Condition.expr, List.nodup_dedup]

/-- C8: chaining `with_params(x=1)` then `with_params(x=2, y=3)` on an action
with no bound parameters yields bound parameters `\x7bx:2, y:3\x7d` — the
later value overrides on the key collision — while the receiving instances
are never mutated: the intermediate instance holds exactly `\x7bx:1\x7d` and
the original still holds nothing. -/
theorem c8_with_params_merges_immutably (a : FunctionBasedAction)
    (h : a.payload.bound_params = []) :
    (FunctionBasedAction.with_params
        (FunctionBasedAction.with_params a [("x", PyVal.int 1)])
        [("x", PyVal.int 2), ("y", PyVal.int 3)]).payload.bound_params
      = [("x", PyVal.int 2), ("y", PyVal.int 3)]
    ∧ (FunctionBasedAction.with_params a
        [("x", PyVal.int 1)]).payload.bound_params = [("x", PyVal.int 1)]
    ∧ a.payload.bound_params = [] := by
  refine ⟨?_, ?_, h⟩
  · show Dict.merge (Dict.merge a.payload.bound_params [("x", PyVal.int 1)])
        [("x", PyVal.int 2), ("y", PyVal.int 3)] = _
    rw [h]
    rfl
  · show Dict.merge a.payload.bound_params [("x", PyVal.int 1)] = _
    rw [h]
    rfl

/-- C8 witness: the chain applied to a concrete fresh action. -/
theorem c8_with_params_merges_immutably_witness :
    (FunctionBasedAction.with_params
        (FunctionBasedAction.with_params freshAction [("x", PyVal.int 1)])
        [("x", PyVal.int 2), ("y", PyVal.int 3)]).payload.bound_params
      = [("x", PyVal.int 2), ("y", PyVal.int 3)]
    ∧ freshAction.payload.bound_params = [] := by
  have h := c8_with_params_merges_immutably freshAction rfl
  exact ⟨h.1, h.2.2⟩

/-- C9 counterexample: the claim says any `Action`-instance input makes
`create_action` succeed with the supplied name. But on an `Action` instance
whose name is already bound the call fails — `with_name` raises the
name-conflict error (not the registration error) — so "otherwise it
succeeds" is false. -/
theorem c9_create_action_fails_on_named_action :
    create_action (CreateInput.actionInst (AnyAction.res namedResult)) "b"
      = .error .nameConflict := rfl

/-- C9 (amended): `create_action` fails with the registration error exactly
on inputs that are neither an `Action` instance nor a marked function; when
the input resolves to an action whose name is unbound it succeeds and the
result carries the supplied name; when the resolved action already has a
name bound it fails with the name-conflict error. -/
theorem c9_create_action_trichotomy (inp : CreateInput) (nm : String) :
    (inp.resolved = none → create_action inp nm = .error .registration)
    ∧ (∀ b, inp.resolved = some b → AnyAction.name b = none →
        ∃ out, create_action inp nm = .ok out ∧ AnyAction.name out = some nm)
    ∧ (∀ b, inp.resolved = some b → AnyAction.name b ≠ none →
        create_action inp nm = .error .nameConflict) := by
  refine ⟨?_, ?_, ?_⟩
  · intro h
    cases inp with
    | actionInst a => exact absurd h (by simp [CreateInput.resolved])
    | functionObj m =>
      cases m with
      | none => rfl
      | some f => exact absurd h (by simp [CreateInput.resolved])
  · intro b hb hname
    cases inp with
    | actionInst a =>
      simp only [CreateInput.resolved, Option.some.injEq] at hb
      cases hb
      cases b with
      | fba f =>
        obtain ⟨fname, fpay⟩ := f
        simp only [AnyAction.name] at hname
        subst hname
        exact ⟨.fba ⟨some nm, fpay⟩, rfl, rfl⟩
      | res r =>
        obtain ⟨rname, rpay⟩ := r
        simp only [AnyAction.name] at hname
        subst hname
        exact ⟨.res ⟨some nm, rpay⟩, rfl, rfl⟩
    | functionObj m =>
      cases m with
      | none => simp [CreateInput.resolved] at hb
      | some f =>
        simp only [CreateInput.resolved, Option.some.injEq] at hb
        subst hb
        obtain ⟨fname, fpay⟩ := f
        simp only [AnyAction.name] at hname
        subst hname
        exact ⟨.fba ⟨some nm, fpay⟩, rfl, rfl⟩
  · intro b hb hname
    cases inp with
    | actionInst a =>
      simp only [CreateInput.resolved, Option.some.injEq] at hb
      cases hb
      cases b with
      | fba f =>
        obtain ⟨fname, fpay⟩ := f
        cases fname with
        | none => exact absurd rfl hname
        | some x => rfl
      | res r =>
        obtain ⟨rname, rpay⟩ := r
        cases rname with
        | none => exact absurd rfl hname
        | some x => rfl
    | functionObj m =>
      cases m with
      | none => simp [CreateInput.resolved] at hb
      | some f =>
        simp only [CreateInput.resolved, Option.some.injEq] at hb
        subst hb
        obtain ⟨fname, fpay⟩ := f
        cases fname with
        | none => exact absurd rfl hname
        | some x => rfl

/-- C9 witness: an unmarked plain function fails with the registration error;
a marked function succeeds with the supplied name; a named action instance
fails with the name-conflict error. -/
theorem c9_create_action_trichotomy_witness :
    create_action (CreateInput.functionObj none) "n" = .error .registration
    ∧ (∃ out, create_action (CreateInput.functionObj (some freshAction)) "n" = .ok out
        ∧ AnyAction.name out = some "n")
    ∧ create_action (CreateInput.actionInst (AnyAction.res namedResult)) "c"
        = .error .nameConflict := by
  refine ⟨(c9_create_action_trichotomy (CreateInput.functionObj none) "n").1 rfl,
    (c9_create_action_trichotomy (CreateInput.functionObj (some freshAction)) "n").2.1
      (AnyAction.fba freshAction) rfl rfl, ?_⟩
  exact (c9_create_action_trichotomy
      (CreateInput.actionInst (AnyAction.res namedResult)) "c").2.2
    (AnyAction.res namedResult) rfl (by simp [AnyAction.name, namedResult])

/-- C10: `update` never clears the `_state_created` cache — the method
assigns nothing to the instance — so after one `run`, a first and a second
`update` with no intervening `run` both succeed, both return the same
subset of the cached state, and both leave the instance exactly as `run`
left it. -/
theorem c10_update_does_not_consume_cache (a : FunctionBasedAction) (s : StateM)
    (r1 r2 : Dict) (s1 s2 : StateM) :
    ∃ st, FunctionBasedAction.update (FunctionBasedAction.run a s).2 r1 s1
        = .ok (st, (FunctionBasedAction.run a s).2)
      ∧ FunctionBasedAction.update (FunctionBasedAction.run a s).2 r2 s2
        = .ok (st, (FunctionBasedAction.run a s).2) :=
  ⟨_, rfl, rfl⟩

end Burr
